import Mathlib

/-!
Shallow embedding of the TSV conversion core of the repository
(`src/utils/tsv_converter.py`, `src/models/helpers/additional_fields.py`,
`src/services/errors.py`, `src/services/warnings.py`).

Python values flowing through the converter are modelled by the inductive
type `Value` (strings, integers, JSON-like lists and dicts).  A Python dict
is modelled as an association list that preserves insertion order, matching
the ordered dict semantics of CPython, with unique keys maintained by the
assignment operation `dictAssign`.  Exceptions become an explicit error
type `ConvError` carried in `Except`; the payload of each constructor is
exactly the record/field data interpolated into the corresponding Python
exception message.  `warnings.warn` calls become values accumulated in a
list alongside the normal result.  The `multiprocessing.Pool.map` call in
`convert` is order-preserving (results are collected in chunk-submission
order), so it is modelled by a sequential `mapM` over the chunk list.
-/

/-- Model of a Python value as handled by the converter: strings, ints,
and JSON-like nested lists / dicts (dicts as insertion-ordered
association lists). -/
inductive Value where
  | str (s : String)
  | int (n : Int)
  | list (xs : List Value)
  | dict (entries : List (String × Value))

/-- A record (Python dict of one input row): insertion-ordered association
list from string keys to values. -/
abbrev Record := List (String × Value)

/-- Python `isinstance(value, dict)` (the check at `tsv_converter.py:136`). -/
def isDict : Value → Bool
  | .dict _ => true
  | _ => false

/-- Lookup in an association list (Python `d[k]` / `k in d`): first entry
with the given key. -/
def alistGet {α : Type} : List (String × α) → String → Option α
  | [], _ => none
  | p :: rest, key => if p.1 = key then some p.2 else alistGet rest key

/-- Python `key in row`. -/
def hasKey (row : Record) (key : String) : Bool :=
  (alistGet row key).isSome

/-- Python dict item assignment `row[key] = v`: overwrite in place if the
key exists (keeping its position), otherwise append at the end. -/
def dictAssign (row : Record) (key : String) (v : Value) : Record :=
  if hasKey row key then
    row.map (fun p => if p.1 = key then (key, v) else p)
  else
    row ++ [(key, v)]

/-- Python `d.update(upd)`: assign every entry of `upd` into `d` in order. -/
def pyDictUpdate (d : List (String × Value)) (upd : List (String × Value)) :
    List (String × Value) :=
  upd.foldl (fun acc p => dictAssign acc p.1 p.2) d

/-- Concatenation of a list of strings, in order (the `StringIO` buffers of
`_process_chunk` and `convert`). -/
def joinAll : List String → String
  | [] => ""
  | s :: rest => s ++ joinAll rest

/-- Lower-case hexadecimal digit. -/
def hexDigitChar (n : Nat) : Char :=
  if n < 10 then Char.ofNat (48 + n) else Char.ofNat (87 + n)

/-- Four lower-case hex digits, as in Python json \uXXXX escapes. -/
def hex4 (n : Nat) : String :=
  String.mk [hexDigitChar (n / 4096 % 16), hexDigitChar (n / 256 % 16),
             hexDigitChar (n / 16 % 16), hexDigitChar (n % 16)]

/-- Escape one character the way Python `json.dumps` (default
`ensure_ascii=True`) does inside a string literal. -/
def jsonEscapeChar (ch : Char) : String :=
  if ch = Char.ofNat 34 then String.mk [Char.ofNat 92, Char.ofNat 34]
  else if ch = Char.ofNat 92 then String.mk [Char.ofNat 92, Char.ofNat 92]
  else if ch = Char.ofNat 10 then String.mk [Char.ofNat 92, Char.ofNat 110]
  else if ch = Char.ofNat 9 then String.mk [Char.ofNat 92, Char.ofNat 116]
  else if ch = Char.ofNat 13 then String.mk [Char.ofNat 92, Char.ofNat 114]
  else if ch = Char.ofNat 8 then String.mk [Char.ofNat 92, Char.ofNat 98]
  else if ch = Char.ofNat 12 then String.mk [Char.ofNat 92, Char.ofNat 102]
  else if ch.toNat < 32 ∨ ch.toNat > 126 then
    if ch.toNat ≤ 65535 then
      String.mk [Char.ofNat 92, Char.ofNat 117] ++ hex4 ch.toNat
    else
      let n := ch.toNat - 65536
      String.mk [Char.ofNat 92, Char.ofNat 117] ++ hex4 (55296 + n / 1024) ++
      String.mk [Char.ofNat 92, Char.ofNat 117] ++ hex4 (56320 + n % 1024)
  else String.singleton ch

/-- Python `json.dumps` of a string, double-quoted and escaped. -/
def jsonEscapeString (s : String) : String :=
  String.singleton (Char.ofNat 34) ++ joinAll (s.data.map jsonEscapeChar) ++
  String.singleton (Char.ofNat 34)

mutual

/-- Python `json.dumps(value)` with default separators (`", "` and `": "`),
as called at `tsv_converter.py:85`. -/
def jsonDumps : Value → String
  | .str s => jsonEscapeString s
  | .int n => toString n
  | .list xs => "[" ++ jsonDumpsElems xs ++ "]"
  | .dict kvs => "\x7b" ++ jsonDumpsEntries kvs ++ "\x7d"

/-- Comma-separated serialization of JSON array elements. -/
def jsonDumpsElems : List Value → String
  | [] => ""
  | [v] => jsonDumps v
  | v :: rest => jsonDumps v ++ ", " ++ jsonDumpsElems rest

/-- Comma-separated serialization of JSON object entries. -/
def jsonDumpsEntries : List (String × Value) → String
  | [] => ""
  | [(k, v)] => jsonEscapeString k ++ ": " ++ jsonDumps v
  | (k, v) :: rest =>
      jsonEscapeString k ++ ": " ++ jsonDumps v ++ ", " ++ jsonDumpsEntries rest

end

/-- Python single-character `str.replace(a, b)` (both arguments one
character long): replace every occurrence. -/
def replaceChar (s : String) (a b : Char) : String :=
  String.mk (s.data.map (fun ch => if ch = a then b else ch))

/-- The two chained replaces of `_sanitize_value`
(`str(value).replace("\t", " ").replace("\n", " ")`). -/
def replaceTabsNewlines (s : String) : String :=
  replaceChar (replaceChar s (Char.ofNat 9) (Char.ofNat 32))
    (Char.ofNat 10) (Char.ofNat 32)

/-- `JsonLengthWarning` of `src/services/warnings.py`: its constructor
signature is `__init__(self, length, max_length)`. -/
structure JsonLengthWarning where
  length : Nat
  max_length : Nat
deriving DecidableEq

/-- The message built by `JsonLengthWarning.__init__`, which interpolates
its first parameter after the words "JSON string length" and its second
parameter after "maximum allowed length of". -/
def JsonLengthWarning.message (w : JsonLengthWarning) : String :=
  "JSON string length " ++ toString w.length ++
  " exceeds the maximum allowed length of " ++ toString w.max_length ++
  " characters."

/-- The exceptions the converter can raise, one constructor per raise
site; each carries exactly the record/field data interpolated into the
Python message at that site.
* `missingNotNull` — `tsv_converter.py:160`.  NOTE: the f-string there
  interpolates the name `field`, which at that point is the module-level
  `dataclasses.field` import (line 1), not the loop variable `key`, so
  the message carries no key name; the only row-dependent datum it
  interpolates is `processed_row`.
* `missingFuncArgs` — `tsv_converter.py:124`, carrying the Python set
  `missing_args` (modelled as a duplicate-free list; membership is the
  meaningful content).
* `missingOutput` — `tsv_converter.py:188`, carrying `output_field` and
  `processed_row`.
* `invalidComputedResult` — the `ValueError` at `tsv_converter.py:141`
  (`"Function result must be a dictionary with keys matching
  output_mapping."`, a constant message).
* `nestedKey` — `NestedKeyError` at `tsv_converter.py:69`, carrying
  `self.nested_key` and `current_level`.
* `nonRecordNested` — a nested extraction that lands on a non-dict value,
  which the Python code would only surface later as a `TypeError` when the
  value is used as a row; never reached in what is proved here. -/
inductive ConvError where
  | missingNotNull (row : Record)
  | missingFuncArgs (missing : List String)
  | missingOutput (outputField : String) (row : Record)
  | invalidComputedResult
  | nestedKey (path : List String) (level : Value)
  | nonRecordNested (level : Value)

/-- Which `ConvError`s are Python `MissingFieldError`s
(`src/services/errors.py`). -/
def ConvError.isMissingFieldError : ConvError → Bool
  | .missingNotNull _ => true
  | .missingFuncArgs _ => true
  | .missingOutput _ _ => true
  | _ => false

/-- The `value` attribute of `AdditionalFields`: either a constant value or
a callable; `callable(value)` distinguishes the two in the source. -/
inductive AFValue where
  | const (v : Value)
  | func (f : List (String × Value) → Value)

/-- Python `callable(additional_field.value)`. -/
def AFValue.isCallable : AFValue → Bool
  | .func _ => true
  | .const _ => false

/-- The `AdditionalFields` dataclass of
`src/models/helpers/additional_fields.py`.  The dataclass performs no
validation of any kind; every field defaults to empty except `value`. -/
structure AdditionalFields where
  value : AFValue
  input_mapping : List (String × String)
  static_args : List (String × Value)
  output_mapping : List (String × String)
  output_fields : List String

/-- The `TSVConverter` dataclass (fields in source order; `debug` omitted,
it only guards prints; dataclass defaults: `not_null_fields = []`,
`missing_value_placeholder = "NULL"`, `num_processes = 4`,
`additional_fields = []`, `max_json_length = 100000`,
`nested_key = None`). -/
structure TSVConverter where
  fields_mapping : List (String × String)
  not_null_fields : List String
  missing_value_placeholder : String
  num_processes : Nat
  additional_fields : List AdditionalFields
  max_json_length : Nat
  nested_key : Option (List String)

/-- `TSVConverter._sanitize_value`: JSON-serialize nested values (warning
if the serialized length exceeds `max_json_length`), stringify, then
replace tabs and newlines by spaces.  The warning is constructed exactly
as at `tsv_converter.py:88`: `JsonLengthWarning(self.max_json_length,
len(value))` — the first constructor argument receives the configured
maximum and the second the actual serialized length. -/
def TSVConverter.sanitize_value (c : TSVConverter) (v : Value) :
    String × List JsonLengthWarning :=
  match v with
  | .dict _ | .list _ =>
      let s := jsonDumps v
      let ws : List JsonLengthWarning :=
        if c.max_json_length < s.length then [⟨c.max_json_length, s.length⟩]
        else []
      (replaceTabsNewlines s, ws)
  | .str s => (replaceTabsNewlines s, [])
  | .int n => (replaceTabsNewlines (toString n), [])

/-- The dict comprehension at `tsv_converter.py:111`: function arguments
from `input_mapping`, keeping only entries whose source field is present. -/
def function_args_of (row : Record) (af : AdditionalFields) :
    List (String × Value) :=
  af.input_mapping.filterMap
    (fun p => (alistGet row p.2).map (fun v => (p.1, v)))

/-- The set `set(input_mapping.values()) - set(row.keys())` at
`tsv_converter.py:122`, modelled as a duplicate-free list. -/
def missing_args_of (row : Record) (af : AdditionalFields) : List String :=
  ((af.input_mapping.map Prod.snd).filter
    (fun src => !(hasKey row src))).eraseDups

/-- One iteration of the loop body of
`TSVConverter._apply_additional_fields` for a single spec: the computed
branch builds arguments, checks missing ones, merges static arguments,
calls the function and writes its dict result through `output_mapping`
(defaulting to the result key itself); the constant branch writes the
value to every name in `output_fields`. -/
def applyAdditionalField (row : Record) (af : AdditionalFields) :
    Except ConvError Record :=
  match af.value with
  | .func f =>
      let function_args := function_args_of row af
      let missing := missing_args_of row af
      if missing.isEmpty then
        let args := pyDictUpdate function_args af.static_args
        match f args with
        | .dict result =>
            .ok (result.foldl
              (fun r p =>
                dictAssign r ((alistGet af.output_mapping p.1).getD p.1) p.2)
              row)
        | _ => .error .invalidComputedResult
      else .error (.missingFuncArgs missing)
  | .const v =>
      .ok (af.output_fields.foldl (fun r out => dictAssign r out v) row)

/-- `TSVConverter._apply_additional_fields`: apply every spec in
registration order (in-place mutation of the row modelled by threading the
record). -/
def TSVConverter.apply_additional_fields (c : TSVConverter) (row : Record) :
    Except ConvError Record :=
  c.additional_fields.foldlM applyAdditionalField row

/-- `TSVConverter._extract_nested_data`: descend the configured key path;
at each step the current level must be a dict containing the key,
otherwise `NestedKeyError` (carrying the full configured path and the
current level). -/
def extract_nested_data (fullPath : List String) :
    List String → Value → Except ConvError Value
  | [], cur => .ok cur
  | key :: rest, cur =>
      match cur with
      | .dict entries =>
          match alistGet entries key with
          | some nxt => extract_nested_data fullPath rest nxt
          | none => .error (.nestedKey fullPath cur)
      | _ => .error (.nestedKey fullPath cur)

/-- `TSVConverter._process_row`: narrow to the nested sub-record when a
path is configured (Python `if self.nested_key:` — `None` and the empty
list are both falsy, and for the empty list the extraction below is the
identity on the record, so the two coincide), then apply all additional
fields. -/
def TSVConverter.process_row (c : TSVConverter) (row : Record) :
    Except ConvError Record := do
  let row ←
    match c.nested_key with
    | none => pure row
    | some path =>
        match ← extract_nested_data path path (.dict row) with
        | .dict entries => pure entries
        | other => throw (.nonRecordNested other)
  c.apply_additional_fields row

/-- One iteration of the `fields_mapping` loop of `_process_chunk`
(`tsv_converter.py:158-164`): a not-null key absent from the processed
row raises; otherwise the value (or the placeholder when absent) is
sanitized. -/
def fm_cell (c : TSVConverter) (processed : Record) (ent : String × String) :
    Except ConvError (String × List JsonLengthWarning) :=
  if c.not_null_fields.contains ent.1 && !(hasKey processed ent.1) then
    .error (.missingNotNull processed)
  else
    .ok (c.sanitize_value
      ((alistGet processed ent.1).getD (.str c.missing_value_placeholder)))

/-- One iteration of the `output_mapping` sub-loop of `_process_chunk`
(`tsv_converter.py:182-188`): a target column absent from the processed
row raises `MissingFieldError`; a present one is read (the `.get` with
placeholder default at line 184 cannot fall back inside this branch, but
is kept as in the source) and sanitized. -/
def dyn_cell (c : TSVConverter) (processed : Record) (out : String) :
    Except ConvError (String × List JsonLengthWarning) :=
  if hasKey processed out then
    .ok (c.sanitize_value
      ((alistGet processed out).getD (.str c.missing_value_placeholder)))
  else
    .error (.missingOutput out processed)

/-- The per-spec part of the line-building loop of `_process_chunk`
(`tsv_converter.py:170-191`): for every spec, first a cell per
`output_fields` name (placeholder fallback), then a cell per
`output_mapping` target.  Both sub-loops run for every spec, regardless
of its form, exactly as in the source. -/
def af_cells (c : TSVConverter) (processed : Record) (af : AdditionalFields) :
    Except ConvError (List (String × List JsonLengthWarning)) := do
  let constCells := af.output_fields.map
    (fun out => c.sanitize_value
      ((alistGet processed out).getD (.str c.missing_value_placeholder)))
  let dynCells ← (af.output_mapping.map Prod.snd).mapM (dyn_cell c processed)
  pure (constCells ++ dynCells)

/-- One full iteration of the row loop of `_process_chunk`: process the
row, build all its cells, join them with tabs and terminate with a
newline; sanitization warnings are collected in emission order. -/
def row_line (c : TSVConverter) (row : Record) :
    Except ConvError (String × List JsonLengthWarning) := do
  let processed ← c.process_row row
  let fmCells ← c.fields_mapping.mapM (fm_cell c processed)
  let afCellsList ← c.additional_fields.mapM (af_cells c processed)
  let cells := fmCells ++ afCellsList.flatten
  pure (String.intercalate "\t" (cells.map Prod.fst) ++ "\n",
        (cells.map Prod.snd).flatten)

/-- `TSVConverter._process_chunk`: the lines of all rows of the chunk, in
order, concatenated into one text block. -/
def TSVConverter.process_chunk (c : TSVConverter) (chunk : List Record) :
    Except ConvError (String × List JsonLengthWarning) := do
  let rs ← chunk.mapM (row_line c)
  pure (joinAll (rs.map Prod.fst), (rs.map Prod.snd).flatten)

/-- `TSVConverter._split_data`: `chunk_size = max(1, len(data) //
num_chunks)` and `num_chunks` contiguous slices
`data[i*chunk_size:(i+1)*chunk_size]`.  (For `num_chunks = 0` Python
raises `ZeroDivisionError`; every use here has `num_chunks ≥ 1`.) -/
def TSVConverter.split_data (_ : TSVConverter) (data : List Record)
    (num_chunks : Nat) : List (List Record) :=
  let chunk_size := max 1 (data.length / num_chunks)
  (List.range num_chunks).map
    (fun i => (data.drop (i * chunk_size)).take chunk_size)

/-- The header contribution of one spec (`tsv_converter.py:209-213`):
`output_mapping.values()` when the value is callable, `output_fields`
otherwise. -/
def header_fields_of (af : AdditionalFields) : List String :=
  match af.value with
  | .func _ => af.output_mapping.map Prod.snd
  | .const _ => af.output_fields

/-- The full header of `convert`: `fields_mapping` target names followed
by every spec's header contribution. -/
def header_fields (c : TSVConverter) : List String :=
  c.fields_mapping.map Prod.snd ++
  (c.additional_fields.map header_fields_of).flatten

/-- `TSVConverter.convert`: build the header, split the data into
`num_processes` chunks, process every chunk (`Pool.map` collects results
in chunk-submission order, modelled by a sequential `mapM`), and
concatenate header line and chunk blocks. -/
def TSVConverter.convert (c : TSVConverter) (data : List Record) :
    Except ConvError (String × List JsonLengthWarning) := do
  let rs ← (c.split_data data c.num_processes).mapM c.process_chunk
  pure (String.intercalate "\t" (header_fields c) ++ "\n" ++
          joinAll (rs.map Prod.fst),
        (rs.map Prod.snd).flatten)

/-- Reference assembly following the specification language for the
conversion result (a refinement target, not source code): one header
line, then exactly one line per input record, in original input order,
with the warnings of each record in order. -/
def convert_per_record (c : TSVConverter) (data : List Record) :
    Except ConvError (String × List JsonLengthWarning) := do
  let rs ← data.mapM (row_line c)
  pure (String.intercalate "\t" (header_fields c) ++ "\n" ++
          joinAll (rs.map Prod.fst),
        (rs.map Prod.snd).flatten)

/-- The computed function of the worked example of the spec (section 8):
f of x and scale returning a dict with the single key doubled holding
x * scale.  The fallback branch is unreachable under the argument sets
built by `applyAdditionalField` for the specs below. -/
def fDoubled : List (String × Value) → Value := fun args =>
  match alistGet args "x", alistGet args "scale" with
  | some (.int x), some (.int k) => .dict [("doubled", .int (x * k))]
  | _, _ => .int 0

/-- The computed AdditionalFields spec of the worked example. -/
def afC5 : AdditionalFields :=
  ⟨.func fDoubled, [("x", "score")], [("scale", .int 2)],
   [("doubled", "score_x2")], []⟩

/-- A function returning a non-dict value (for exercising the
invalid-computed-result branch). -/
def fConst7 : List (String × Value) → Value := fun _ => .int 7

/-- A computed spec whose function returns a non-dict value. -/
def afC6spec : AdditionalFields := ⟨.func fConst7, [], [], [], []⟩

/-- Converter carrying `afC6spec`. -/
def cC6conv : TSVConverter :=
  ⟨[("a", "a")], [], "NULL", 1, [afC6spec], 100000, none⟩

/-- An AdditionalFields instance populating both forms at once: a
callable value together with a non-empty `output_fields` list.  The
dataclass constructor accepts it unconditionally. -/
def afBoth : AdditionalFields :=
  ⟨.func fDoubled, [("x", "score")], [("scale", .int 2)],
   [("doubled", "score_x2")], ["flag"]⟩

/-- Converter carrying the both-forms spec `afBoth`. -/
def cC7conv : TSVConverter :=
  ⟨[("score", "score")], [], "NULL", 1, [afBoth], 100000, none⟩

/-- One-column converter with `num_processes = k` and no other options. -/
def cC1conv (k : Nat) : TSVConverter :=
  ⟨[("id", "id")], [], "NULL", k, [], 100000, none⟩

/-- Three one-key records. -/
def dC1data : List Record :=
  [[("id", .str "1")], [("id", .str "2")], [("id", .str "3")]]

/-- The converter of the worked example of the spec (section 8): id and
name columns, placeholder NULL, all other dataclass defaults
(`num_processes = 4`). -/
def cC2conv : TSVConverter :=
  ⟨[("id", "id"), ("name", "name")], [], "NULL", 4, [], 100000, none⟩

/-- The input of the worked example. -/
def dC2data : List Record :=
  [[("id", .str "1")], [("id", .str "2"), ("name", .str "Bob")]]

/-- One-column converter whose only column is required (NotNullFields)
and with `num_processes = k`. -/
def cC4conv (k : Nat) : TSVConverter :=
  ⟨[("id", "id")], ["id"], "NULL", k, [], 100000, none⟩

/-- Two valid records followed by a record lacking the required id key. -/
def dC4data : List Record :=
  [[("id", .str "1")], [("id", .str "2")], [("x", .int 0)]]

/-- Converter with all dataclass defaults except the field mapping (used
for sanitization statements). -/
def cC8conv : TSVConverter :=
  ⟨[("id", "id"), ("name", "name")], [], "NULL", 4, [], 100000, none⟩

/-- Converter with `max_json_length = 5` (used to trigger the oversized
JSON warning). -/
def cC9conv : TSVConverter :=
  ⟨[("a", "a")], [], "NULL", 1, [], 5, none⟩

/-- Two-record input with `num_processes = 5` (more workers than
records). -/
def cC10w : TSVConverter :=
  ⟨[("id", "id")], [], "NULL", 5, [], 100000, none⟩

/-- The two records for the `cC10w` instance. -/
def dC10w : List Record :=
  [[("id", .str "1")], [("id", .str "2")]]

-- ## Helper lemmas

theorem joinAll_append (a b : List String) :
    joinAll (a ++ b) = joinAll a ++ joinAll b := by
  induction a with
  | nil => simp [joinAll]
  | cons s rest ih => simp [joinAll, ih, String.append_assoc]

theorem joinAll_replicate_empty (t : Nat) :
    joinAll (List.replicate t "") = "" := by
  induction t with
  | zero => rfl
  | succ n ih => simp [List.replicate_succ, joinAll, ih]

theorem flatten_replicate_nil {α : Type} (t : Nat) :
    (List.replicate t ([] : List α)).flatten = [] := by
  induction t with
  | zero => rfl
  | succ n ih => simp [List.replicate_succ, ih]

theorem range_take_one (data : List Record) :
    ∀ k, data.length ≤ k →
    (List.range k).map (fun i => (data.drop i).take 1) =
      data.map (fun r => [r]) ++ List.replicate (k - data.length) [] := by
  induction data with
  | nil =>
      intro k _
      simp [List.map_const']
  | cons r rest ih =>
      intro k hk
      cases k with
      | zero => simp at hk
      | succ m =>
          rw [List.range_succ_eq_map, List.map_cons, List.map_map]
          have hfun :
              ((fun i => (((r :: rest).drop i).take 1)) ∘ Nat.succ) =
                (fun i => ((rest.drop i).take 1)) := by
            funext i
            rfl
          rw [hfun]
          rw [ih m (Nat.le_of_succ_le_succ hk)]
          simp [Nat.succ_sub_succ]

theorem split_data_small (c : TSVConverter) (data : List Record) (k : Nat)
    (h : data.length < k) :
    c.split_data data k =
      data.map (fun r => [r]) ++ List.replicate (k - data.length) [] := by
  have hdiv : data.length / k = 0 := Nat.div_eq_of_lt h
  simp only [TSVConverter.split_data, hdiv]
  norm_num
  exact range_take_one data k h.le

theorem process_chunk_nil (c : TSVConverter) :
    c.process_chunk [] = .ok ("", []) := rfl

theorem mapM_pc_replicate_nil (c : TSVConverter) (t : Nat) :
    (List.replicate t ([] : List Record)).mapM c.process_chunk =
      .ok (List.replicate t ("", ([] : List JsonLengthWarning))) := by
  induction t with
  | zero => rfl
  | succ n ih =>
      rw [List.replicate_succ, List.mapM_cons, ih, process_chunk_nil]
      rfl

theorem process_chunk_singleton (c : TSVConverter) (r : Record) :
    c.process_chunk [r] = row_line c r := by
  simp only [TSVConverter.process_chunk]
  rw [List.mapM_cons, List.mapM_nil]
  cases h : row_line c r with
  | ok b =>
      simp [Bind.bind, Except.bind, pure, Except.pure, joinAll]
  | error e =>
      rfl

theorem mapM_pc_singletons (c : TSVConverter) (data : List Record) :
    (data.map (fun r => [r])).mapM c.process_chunk =
      data.mapM (row_line c) := by
  induction data with
  | nil => rfl
  | cons r rest ih =>
      rw [List.map_cons, List.mapM_cons, List.mapM_cons,
          process_chunk_singleton, ih]

theorem alistGet_eq_none_of_hasKey_false (row : Record) (k : String)
    (h : hasKey row k = false) : alistGet row k = none := by
  unfold hasKey at h
  cases hg : alistGet row k with
  | none => rfl
  | some v => rw [hg] at h; simp at h

theorem dyn_cells_error (c : TSVConverter) (row : Record) :
    ∀ ts : List String, (∃ t ∈ ts, hasKey row t = false) →
    ∃ bad, bad ∈ ts ∧ hasKey row bad = false ∧
      ts.mapM (dyn_cell c row) = .error (.missingOutput bad row) := by
  intro ts
  induction ts with
  | nil =>
      rintro ⟨t, ht, _⟩
      exact absurd ht (List.not_mem_nil t)
  | cons t rest ih =>
      rintro ⟨t0, ht0, h0⟩
      by_cases h : hasKey row t = true
      · have ht0r : t0 ∈ rest := by
          cases List.mem_cons.mp ht0 with
          | inl heq => rw [heq, h] at h0; exact absurd h0 (by simp)
          | inr hr => exact hr
        obtain ⟨bad, hbmem, hbfalse, heq⟩ := ih ⟨t0, ht0r, h0⟩
        refine ⟨bad, List.mem_cons_of_mem _ hbmem, hbfalse, ?_⟩
        rw [List.mapM_cons, heq]
        simp [dyn_cell, h, Bind.bind, Except.bind, pure, Except.pure]
      · have hf : hasKey row t = false := by
          cases hv : hasKey row t with
          | true => exact absurd hv h
          | false => rfl
        refine ⟨t, List.mem_cons_self t rest, hf, ?_⟩
        rw [List.mapM_cons]
        simp [dyn_cell, hf, Bind.bind, Except.bind]

theorem dyn_cells_ok (c : TSVConverter) (row : Record) :
    ∀ ts : List String, (∀ t ∈ ts, hasKey row t = true) →
    ts.mapM (dyn_cell c row) =
      .ok (ts.map (fun out => c.sanitize_value
        ((alistGet row out).getD (.str c.missing_value_placeholder)))) := by
  intro ts
  induction ts with
  | nil => intro _; rfl
  | cons t rest ih =>
      intro hall
      rw [List.mapM_cons, ih (fun x hx => hall x (List.mem_cons_of_mem _ hx))]
      simp [dyn_cell, hall t (List.mem_cons_self t rest), Bind.bind,
            Except.bind, pure, Except.pure]

-- ## Claims

/-- C1: the claim states that for every record list R and every worker
count k with 1 ≤ k ≤ R.length, convert with num_processes = k returns the
same data rows as with num_processes = 1.  The code refutes this: with
three records and k = 2, `_split_data` makes two slices of size
`max 1 (3 / 2) = 1` and the third record is in neither slice, so the
two-process output has one data row fewer than the one-process output.
This theorem evaluates the embedded code at that failing input. -/
theorem claim_C1 :
    (cC1conv 2).split_data dC1data 2 =
      [[[("id", .str "1")]], [[("id", .str "2")]]]
    ∧ (cC1conv 2).convert dC1data = .ok ("id\n1\n2\n", [])
    ∧ (cC1conv 1).convert dC1data = .ok ("id\n1\n2\n3\n", [])
    ∧ ("id\n1\n2\n" : String) ≠ "id\n1\n2\n3\n" :=
  ⟨rfl, rfl, rfl, by decide⟩

/-- C2: with the mapping id to id and name to name, placeholder NULL, no
additional fields and no nested key, converting the two worked-example
records yields exactly the header line followed by the two data lines,
each newline-terminated and with NULL for the missing name. -/
theorem claim_C2 :
    cC2conv.convert dC2data =
      .ok ("id\tname\n1\tNULL\n2\tBob\n", []) := rfl

/-- C3: during row building, a fields_mapping source key absent from the
processed record and not listed in not_null_fields is replaced by the
sanitized missing-value placeholder, whereas for a computed-form spec any
output_mapping target column still absent from the record makes the
per-spec cell construction fail with a MissingFieldError (the first
absent target), never falling back to the placeholder. -/
theorem claim_C3 :
    (∀ (c : TSVConverter) (row : Record) (key col : String),
       c.not_null_fields.contains key = false → hasKey row key = false →
       fm_cell c row (key, col) =
         .ok (c.sanitize_value (.str c.missing_value_placeholder)))
    ∧ (∀ (c : TSVConverter) (row : Record) (af : AdditionalFields)
         (out : String),
       AFValue.isCallable af.value = true →
       out ∈ af.output_mapping.map Prod.snd → hasKey row out = false →
       ∃ bad, bad ∈ af.output_mapping.map Prod.snd ∧
         hasKey row bad = false ∧
         af_cells c row af = .error (.missingOutput bad row) ∧
         (ConvError.missingOutput bad row).isMissingFieldError = true) := by
  constructor
  · intro c row key col hnn habs
    simp only [fm_cell, hnn, habs, Bool.false_and, Bool.and_false]
    rw [alistGet_eq_none_of_hasKey_false row key habs]
    rfl
  · intro c row af out _hcall hmem habs
    obtain ⟨bad, hb1, hb2, hb3⟩ :=
      dyn_cells_error c row (af.output_mapping.map Prod.snd)
        ⟨out, hmem, habs⟩
    refine ⟨bad, hb1, hb2, ?_, rfl⟩
    simp only [af_cells, hb3]
    rfl

/-- C3 witness: both parts of `claim_C3` instantiated at concrete
inputs. -/
theorem claim_C3_witness :
    fm_cell cC2conv [("id", .str "1")] ("name", "name") =
      .ok (cC2conv.sanitize_value (.str cC2conv.missing_value_placeholder))
    ∧ ∃ bad, bad ∈ afC5.output_mapping.map Prod.snd ∧
        hasKey [("score", .int 5)] bad = false ∧
        af_cells cC2conv [("score", .int 5)] afC5 =
          .error (.missingOutput bad [("score", .int 5)]) ∧
        (ConvError.missingOutput bad [("score", .int 5)]).isMissingFieldError
          = true :=
  ⟨claim_C3.1 cC2conv [("id", .str "1")] "name" "name" (by decide)
     (by decide),
   claim_C3.2 cC2conv [("score", .int 5)] afC5 "score_x2" rfl (by decide)
     (by decide)⟩

/-- C4: the claim states that for every input list containing a record
lacking a not_null_fields key, convert raises a MissingFieldError that
identifies the offending source key.  The code refutes both halves: with
num_processes = 2 the offending third record of `dC4data` falls into the
slice remainder dropped by `_split_data`, so convert returns a table and
raises nothing; and when the error is raised (single process, offending
record processed), its message carries no key name at all, because the
f-string at `tsv_converter.py:160` interpolates the module-level
`dataclasses.field` import instead of the loop key — in the embedding the
error constructor `missingNotNull` accordingly carries only the row. -/
theorem claim_C4 :
    (cC4conv 2).convert dC4data = .ok ("id\n1\n2\n", [])
    ∧ (cC4conv 1).convert [[("x", .int 0)]] =
        .error (.missingNotNull [("x", .int 0)])
    ∧ (ConvError.missingNotNull [("x", .int 0)]).isMissingFieldError
        = true :=
  ⟨rfl, rfl, rfl⟩

/-- C5: the computed spec with input_mapping x to score, static scale 2,
function doubling its input and output_mapping doubled to score_x2,
applied to a record with score 5, adds the column score_x2 with value 10;
applied to any record without the key score, it raises a
MissingFieldError naming score. -/
theorem claim_C5 :
    applyAdditionalField [("score", .int 5)] afC5 =
      .ok [("score", .int 5), ("score_x2", .int 10)]
    ∧ ∀ row : Record, hasKey row "score" = false →
        applyAdditionalField row afC5 =
          .error (.missingFuncArgs ["score"]) := by
  refine ⟨rfl, ?_⟩
  intro row h
  have hm : missing_args_of row afC5 = ["score"] := by
    simp [missing_args_of, afC5, List.filter, h]
    rfl
  simp only [afC5] at hm
  simp only [applyAdditionalField, afC5, hm]
  rfl

/-- C5 witness: the missing-field half of `claim_C5` at the empty
record. -/
theorem claim_C5_witness :
    hasKey ([] : Record) "score" = false ∧
    applyAdditionalField [] afC5 = .error (.missingFuncArgs ["score"]) :=
  ⟨rfl, claim_C5.2 [] rfl⟩

/-- C6: for every computed-form spec whose function returns a non-dict
value under the arguments the evaluator builds, evaluation fails with the
invalid-computed-result error (the ValueError raise at
`tsv_converter.py:141`, which the spec names InvalidComputedResultError);
consequently a convert carrying such a spec raises and produces no
output. -/
theorem claim_C6 :
    (∀ (row : Record) (af : AdditionalFields)
       (f : List (String × Value) → Value),
       af.value = .func f →
       missing_args_of row af = [] →
       isDict (f (pyDictUpdate (function_args_of row af) af.static_args)) =
         false →
       applyAdditionalField row af = .error .invalidComputedResult)
    ∧ cC6conv.convert [[]] = .error .invalidComputedResult := by
  refine ⟨?_, rfl⟩
  intro row af f hf h1 h2
  obtain ⟨v, im, sa, om, ofs⟩ := af
  simp only at hf
  subst hf
  simp only [applyAdditionalField, h1]
  simp only [List.isEmpty_nil, if_true]
  simp only at h2
  cases hv : f (pyDictUpdate
      (function_args_of row ⟨.func f, im, sa, om, ofs⟩) sa) with
  | dict d => rw [hv] at h2; simp [isDict] at h2
  | str s => rfl
  | int n => rfl
  | list xs => rfl

/-- C6 witness: `claim_C6` instantiated with the non-dict-returning
function `fConst7`. -/
theorem claim_C6_witness :
    afC6spec.value = AFValue.func fConst7 ∧
    missing_args_of [] afC6spec = [] ∧
    isDict (fConst7 (pyDictUpdate (function_args_of [] afC6spec)
      afC6spec.static_args)) = false ∧
    applyAdditionalField [] afC6spec = .error .invalidComputedResult :=
  ⟨rfl, rfl, rfl, claim_C6.1 [] afC6spec fConst7 rfl rfl rfl⟩

/-- C7 counterexample: the claim states that an AdditionalFieldSpec
populating both forms fails with a ConfigurationError when constructed or
used.  The code performs no such validation: `afBoth` populates both
forms (callable value and non-empty output_fields), its construction
succeeds, and a convert carrying it returns a table with no error — a
malformed one whose header has two columns while the data row has
three cells. -/
theorem claim_C7_counterexample :
    AFValue.isCallable afBoth.value = true ∧ afBoth.output_fields ≠ [] ∧
    cC7conv.convert [[("score", .int 5)]] =
      .ok ("score\tscore_x2\n5\tNULL\t10\n", []) := by
  refine ⟨rfl, ?_, rfl⟩
  simp [afBoth]

/-- C7 as amended: no ConfigurationError exists; the code distinguishes
the two forms only by whether the value is callable.  The header takes a
callable spec's output_mapping targets and a constant spec's
output_fields, while row building always emits one cell per
output_fields name and one per output_mapping target for every spec, so
a spec populating both forms yields, without any error, more row cells
than its header contribution. -/
theorem claim_C7 :
    (∀ af : AdditionalFields, AFValue.isCallable af.value = true →
       header_fields_of af = af.output_mapping.map Prod.snd)
    ∧ (∀ af : AdditionalFields, AFValue.isCallable af.value = false →
       header_fields_of af = af.output_fields)
    ∧ (∀ (c : TSVConverter) (row : Record) (af : AdditionalFields),
       (∀ t ∈ af.output_mapping.map Prod.snd, hasKey row t = true) →
       ∃ cells, af_cells c row af = .ok cells ∧
         cells.length =
           af.output_fields.length + af.output_mapping.length) := by
  refine ⟨?_, ?_, ?_⟩
  · intro af h
    cases haf : af.value with
    | func f => simp [header_fields_of, haf]
    | const v => rw [haf] at h; simp [AFValue.isCallable] at h
  · intro af h
    cases haf : af.value with
    | func f => rw [haf] at h; simp [AFValue.isCallable] at h
    | const v => simp [header_fields_of, haf]
  · intro c row af hall
    have h := dyn_cells_ok c row (af.output_mapping.map Prod.snd) hall
    refine ⟨af.output_fields.map (fun out => c.sanitize_value
        ((alistGet row out).getD (.str c.missing_value_placeholder))) ++
      (af.output_mapping.map Prod.snd).map (fun out => c.sanitize_value
        ((alistGet row out).getD (.str c.missing_value_placeholder))),
      ?_, ?_⟩
    · simp only [af_cells, h]
      rfl
    · simp

/-- C7 witness: the cell-count part of `claim_C7` at the both-forms spec
`afBoth`. -/
theorem claim_C7_witness :
    (∀ t ∈ afBoth.output_mapping.map Prod.snd,
       hasKey [("score_x2", .int 10)] t = true)
    ∧ ∃ cells,
        af_cells cC7conv [("score_x2", .int 10)] afBoth = .ok cells ∧
        cells.length =
          afBoth.output_fields.length + afBoth.output_mapping.length :=
  ⟨by decide,
   claim_C7.2.2 cC7conv [("score_x2", .int 10)] afBoth (by decide)⟩

/-- C8: sanitizing is deterministic (the embedding is a pure function of
the converter and the value); the chained replaces of the sanitizer turn
every tab and newline character of a textual value into a single space;
and sanitizing the string tab-A-newline-B yields space-A-space-B. -/
theorem claim_C8 :
    (∀ (c : TSVConverter) (v : Value),
       c.sanitize_value v = c.sanitize_value v)
    ∧ (∀ s : String, replaceTabsNewlines s =
        String.mk (s.data.map (fun ch =>
          if ch = Char.ofNat 9 ∨ ch = Char.ofNat 10 then Char.ofNat 32
          else ch)))
    ∧ cC8conv.sanitize_value (.str "\tA\nB") = (" A B", []) := by
  refine ⟨fun _ _ => rfl, ?_, rfl⟩
  intro s
  simp only [replaceTabsNewlines, replaceChar, List.map_map]
  congr 1
  apply List.map_congr_left
  intro ch _
  by_cases h9 : ch = Char.ofNat 9
  · simp [Function.comp, h9]
  · by_cases h10 : ch = Char.ofNat 10
    · simp [Function.comp, h9, h10]
    · simp [Function.comp, h9, h10]

/-- C8 witness: the replacement characterization of `claim_C8` at the
concrete example string. -/
theorem claim_C8_witness :
    replaceTabsNewlines "\tA\nB" =
      String.mk ("\tA\nB".data.map (fun ch =>
        if ch = Char.ofNat 9 ∨ ch = Char.ofNat 10 then Char.ofNat 32
        else ch)) :=
  claim_C8.2.1 "\tA\nB"

/-- C9: the claim states that an oversized serialized value triggers
exactly one warning whose message names the actual serialized length and
the configured maximum, the value appearing untruncated in the output.
The code emits exactly one warning and keeps the full text (both
confirmed below), but the call at `tsv_converter.py:88` passes the
configured maximum as the first constructor argument and the actual
length as the second — swapped with respect to the constructor signature
of `JsonLengthWarning`, whose message labels the first argument as the
JSON string length and the second as the maximum allowed length.  For
a list serializing to 9 characters under maximum 5, the message
therefore reads length 5 and maximum 9. -/
theorem claim_C9 :
    cC9conv.sanitize_value (.list [.int 1, .int 2, .int 3]) =
      ("[1, 2, 3]", [⟨5, 9⟩])
    ∧ (jsonDumps (.list [.int 1, .int 2, .int 3])).length = 9
    ∧ cC9conv.max_json_length = 5
    ∧ (JsonLengthWarning.mk 5 9).message =
        "JSON string length 5 exceeds the maximum allowed length of 9 characters."
    ∧ (JsonLengthWarning.mk 5 9).message ≠
        "JSON string length 9 exceeds the maximum allowed length of 5 characters." :=
  ⟨rfl, rfl, rfl, rfl, by decide⟩

/-- C10: for every non-empty record list and every worker count larger
than the number of records, the splitter produces one singleton chunk
per record followed by empty chunks (chunk size max 1 of a zero quotient
is 1), and convert equals the per-record reference assembly: one data
line per record, in original input order, empty chunks contributing
nothing. -/
theorem claim_C10 (c : TSVConverter) (data : List Record)
    (h1 : data.length < c.num_processes) (h2 : data ≠ []) :
    c.split_data data c.num_processes =
      data.map (fun r => [r]) ++
        List.replicate (c.num_processes - data.length) []
    ∧ c.convert data = convert_per_record c data := by
  refine ⟨split_data_small c data _ h1, ?_⟩
  unfold TSVConverter.convert convert_per_record
  rw [split_data_small c data _ h1, List.mapM_append, mapM_pc_singletons,
      mapM_pc_replicate_nil]
  cases hm : data.mapM (row_line c) with
  | error e => rfl
  | ok rs =>
      simp [Bind.bind, Except.bind, pure, Except.pure, List.map_append,
            List.map_replicate, joinAll_append, joinAll_replicate_empty,
            List.flatten_append, flatten_replicate_nil]

/-- C10 witness: `claim_C10` at two records and five workers. -/
theorem claim_C10_witness :
    dC10w.length < cC10w.num_processes ∧ dC10w ≠ [] ∧
    (cC10w.split_data dC10w cC10w.num_processes =
      dC10w.map (fun r => [r]) ++
        List.replicate (cC10w.num_processes - dC10w.length) []
     ∧ cC10w.convert dC10w = convert_per_record cC10w dC10w) :=
  ⟨by decide, by simp [dC10w],
   claim_C10 cC10w dC10w (by decide) (by simp [dC10w])⟩
